import Mathlib

/-
  Verification of the ic-siwb authentication core (packages/ic_siwb/src/login.rs)
  against its natural-language specification.

  Shallow embedding conventions:
  * machine integers are Nat/Int with explicit `% 2^w` where wrapping matters
    (u8 arithmetic in `calculate_sig_recovery`, the `as uN` casts in
    `BufferWriter::varint_buf_num`);
  * byte buffers are `List Nat` (each element a byte value);
  * external trusted primitives (SHA-256, base64, secp256k1 point operations,
    the bitcoin crate address constructors, and the repository modules that are
    not part of the sources being verified: delegation.rs, signature_map.rs,
    siwb.rs, settings.rs, hash.rs) are fields of an `Ops` structure or
    standalone definitions whose doc comment starts with
    `Modelled from the spec:`;
  * a Rust panic (out-of-bounds slice) is a distinguished `panic` outcome;
    fallible code returns an `err`/`ok` result type.
-/

namespace ICSiwb

set_option maxRecDepth 10000

/-! ## Little-endian byte encodings and Bitcoin CompactSize -/

/-- Little-endian encoding of `n` into exactly `k` bytes (low byte first).
This models the `byteorder::LittleEndian::write_u16/u32` calls in
`BufferWriter::varint_buf_num` (login.rs lines 205-227). -/
def leBytes : Nat → Nat → List Nat
  | 0, _ => []
  | k + 1, n => n % 256 :: leBytes k (n / 256)

/-- Bitcoin CompactSize encoding, written from the specification's words
(spec section 4.2): below 253 a single byte; below 2^16 marker 253 plus
little-endian u16; below 2^32 marker 254 plus little-endian u32; otherwise
marker 255 plus little-endian u64. -/
def compactSize (n : Nat) : List Nat :=
  if n < 253 then [n]
  else if n < 65536 then 253 :: leBytes 2 n
  else if n < 4294967296 then 254 :: leBytes 4 n
  else 255 :: leBytes 8 n

/-- Rust `x as i32` applied to an i64 value: two's-complement truncation of the
low 32 bits, producing a value in [-2^31, 2^31). -/
def as_i32 (x : Int) : Int :=
  if x % 4294967296 < 2147483648 then x % 4294967296 else x % 4294967296 - 4294967296

/-- Rust `x as usize as i64` applied to a Nat length: two's-complement
reinterpretation of the low 64 bits. -/
def usize_as_i64 (n : Nat) : Int :=
  if n % 18446744073709551616 < 9223372036854775808 then ((n % 18446744073709551616 : Nat) : Int)
  else ((n % 18446744073709551616 : Nat) : Int) - 18446744073709551616

/-- Embedding of `BufferWriter::varint_buf_num` (login.rs lines 205-227).
The argument is the i64 value `n`.  Branch four writes
`LittleEndian::write_i32(&mut bytes[0..4], (n & -1) as i32)` (note `n & -1 = n`)
followed by `LittleEndian::write_u32(&mut bytes[4..8], (n / 0x100000000) as u32)`;
writing an i32 little-endian produces the bytes of its value modulo 2^32, and
Rust i64 division truncates toward zero (`Int.div`). -/
def varint_buf_num (n : Int) : List Nat :=
  if n < 253 then [(n % 256).toNat]
  else if n < 65536 then 253 :: leBytes 2 (n % 65536).toNat
  else if n < 4294967296 then 254 :: leBytes 4 (n % 4294967296).toNat
  else 255 :: (leBytes 4 ((as_i32 n) % 4294967296).toNat
        ++ leBytes 4 ((Int.tdiv n 4294967296) % 4294967296).toNat)

/-! ## Recovery-id arithmetic -/

/-- The `while v > 3 { v = v - 4 }` loop of `calculate_sig_recovery`
(login.rs lines 324-326 and 330-332), written with explicit fuel so that it is
structurally recursive; `reduce4` supplies enough fuel for every input. -/
def reduce4Fuel : Nat → Nat → Nat
  | 0, v => v
  | fuel + 1, v => if 3 < v then reduce4Fuel fuel (v - 4) else v

/-- Repeatedly subtract 4 until the value lies in [0,3]. -/
def reduce4 (v : Nat) : Nat := reduce4Fuel v v

/-- The recovery-flag adjustment in `recover_pub_key_compact`
(login.rs lines 283-285): `if v < 27 { v = v + 27 }`. -/
def adjust_v (v : Nat) : Nat := if v < 27 then v + 27 else v

/-- Embedding of `calculate_sig_recovery` (login.rs lines 317-335).  All
arithmetic is u8 arithmetic: subtraction wraps modulo 256, modelled by
`(a + 256 - b) % 256` (valid for `v < 256`), and `chain_id * 2 + 35` wraps. -/
def calculate_sig_recovery (v : Nat) (chain_id : Option Nat) : Nat :=
  if v = 0 ∨ v = 1 then v
  else
    match chain_id with
    | none => reduce4 ((v + 256 - 27) % 256)
    | some c => reduce4 ((v + 256 - (c * 2 + 35) % 256) % 256)

/-! ## Hex decoding (the `hex` crate as used on the public key string) -/

/-- Value of one hexadecimal digit character, if any. -/
def hexVal (c : Char) : Option Nat :=
  if 48 ≤ c.toNat ∧ c.toNat ≤ 57 then some (c.toNat - 48)
  else if 97 ≤ c.toNat ∧ c.toNat ≤ 102 then some (c.toNat - 87)
  else if 65 ≤ c.toNat ∧ c.toNat ≤ 70 then some (c.toNat - 55)
  else none

/-- Decode a list of hex digit characters two at a time. -/
def hexPairs : List Char → Option (List Nat)
  | [] => some []
  | [_] => none
  | a :: b :: rest => do
      let x ← hexVal a
      let y ← hexVal b
      let r ← hexPairs rest
      pure ((16 * x + y) :: r)

/-- Embedding of `hex::decode` applied to a string: even number of hex digits
or failure. -/
def hexDecode (s : String) : Option (List Nat) := hexPairs s.toList

/-- Rust `str::starts_with` on strings, used by `verify_address` for the
address-prefix dispatch. -/
def strStartsWith (s p : String) : Bool := p.toList.isPrefixOf s.toList

/-! ## Data model -/

/-- Bitcoin network selected by `verify_address` (bitcoin crate `Network`). -/
inductive Network where
  | bitcoin
  | testnet
deriving DecidableEq

/-- Address type selected by `verify_address` (bitcoin crate `AddressType`). -/
inductive AddressType where
  | p2pkh
  | p2sh
  | p2wpkh
  | p2tr
deriving DecidableEq

/-- A parsed `bitcoin::PublicKey`: its raw SEC1 bytes and whether they are the
compressed (33-byte) form. -/
structure BPubKey where
  bytes : List Nat
  compressed : Bool
deriving DecidableEq

/-- A session delegation (delegation.rs is outside the given sources).
Modelled from the spec: {session public key, expiration timestamp}; the
optional target restriction is always absent in this flow. -/
structure Delegation where
  pubkey : List Nat
  expiration : Nat
deriving DecidableEq

/-- Result of `verify_address` (source type `Result<String, String>`; error
messages are not modelled). -/
inductive VAResult where
  | err : VAResult
  | ok : String → VAResult
deriving DecidableEq

/-- Result of `recover_pub_key_compact` / `_verify_message`.  `panic` is a
Rust runtime fault (out-of-bounds slice); `err` is any returned error value
(error messages are not modelled). -/
inductive RecoverResult where
  | panic : RecoverResult
  | err : RecoverResult
  | ok : List Nat → RecoverResult
deriving DecidableEq

/-- External trusted primitives and spec-modelled collaborator modules, all
outside the verified sources (spec section 1 declares them out of scope):
hashing, base64, secp256k1 recovery and point compression, the bitcoin crate
address constructors, and delegation.rs / hash.rs helpers. -/
structure Ops where
  /-- SHA-256 over a byte buffer (`k256::sha2::Sha256`). -/
  sha256 : List Nat → List Nat
  /-- `base64::engine::general_purpose::STANDARD.decode`. -/
  b64decode : String → Option (List Nat)
  /-- `VerifyingKey::recover_from_prehash` composed with
  `Signature::from_slice` and `to_encoded_point(true)`: takes the 64 r‖s
  bytes, the 32-byte digest and the recovery id, and returns the 33-byte
  compressed key, or `none` on any parse/recovery failure. -/
  ecRecover : List Nat → List Nat → Nat → Option (List Nat)
  /-- `public_key.inner.serialize()`: the compressed SEC1 serialization of the
  point parsed from the given bytes. -/
  compress : List Nat → List Nat
  /-- Whether the bytes encode a valid secp256k1 point
  (`PublicKey::from_slice` curve check). -/
  validPoint : List Nat → Bool
  /-- Whether 32 bytes are a valid x-only key (`XOnlyPublicKey::from_slice`
  curve check). -/
  validXOnly : List Nat → Bool
  /-- `bitcoin::Address::p2pkh` rendered to a string (accepts both key forms). -/
  p2pkh : BPubKey → Network → String
  /-- `bitcoin::Address::p2wpkh` rendered to a string (defined on compressed
  keys; the crate's error on uncompressed keys is modelled at the call site). -/
  p2wpkh : BPubKey → Network → String
  /-- `bitcoin::Address::p2shwpkh` rendered to a string (same convention). -/
  p2shwpkh : BPubKey → Network → String
  /-- `bitcoin::Address::p2tr` from a 32-byte x-only internal key and an
  optional script-tree merkle root, rendered to a string. -/
  p2tr : List Nat → Option (List Nat) → Network → String
  /-- Modelled from the spec: `generate_seed` (delegation.rs), a deterministic
  function of the salt and the address script bytes. -/
  seed : List Nat → List Nat
  /-- Modelled from the spec: `hash::hash_bytes` (hash.rs). -/
  hashBytes : List Nat → List Nat
  /-- Modelled from the spec: `create_delegation` (delegation.rs) "fails only
  if the session key is structurally invalid"; this predicate is that
  structural validity check. -/
  sessionKeyValid : List Nat → Bool
  /-- Modelled from the spec: `create_delegation_hash` (delegation.rs),
  canonical hash of the delegation's certified representation. -/
  delegationHash : Delegation → List Nat
  /-- Modelled from the spec: `create_user_canister_pubkey` (delegation.rs),
  DER construction from canister id and seed; `none` is the ASN.1 error. -/
  canisterPubkey : List Nat → List Nat → Option (List Nat)
  /-- Modelled from the spec: the expiry horizon signature_map.rs attaches to
  an inserted certified entry. -/
  sigTtl : Nat

/-! ## MessageCodec: the Bitcoin signed-message digest -/

/-- The magic string constant `MAGIC_BYTES` (login.rs line 34). -/
def MAGIC_BYTES : String := "Bitcoin Signed Message:\n"

/-- UTF-8 bytes of the magic string (all ASCII). -/
def MAGIC_LIST : List Nat := MAGIC_BYTES.toList.map Char.toNat

/-- Embedding of `_msg_hash` (login.rs lines 230-243): frame the message with
varint length prefixes and the magic string, then apply SHA-256 twice.  The
message is its UTF-8 byte list; `message.as_bytes().len()` is its length. -/
def msg_hash (ops : Ops) (message : List Nat) : List Nat :=
  let prefix1 := varint_buf_num (usize_as_i64 MAGIC_LIST.length)
  let prefix2 := varint_buf_num (usize_as_i64 message.length)
  ops.sha256 (ops.sha256 (prefix1 ++ MAGIC_LIST ++ prefix2 ++ message))

/-! ## SignatureRecoverer -/

/-- Rust slice indexing `l[a..b]`: `none` models the out-of-bounds panic. -/
def rustSlice (l : List Nat) (a b : Nat) : Option (List Nat) :=
  if a ≤ b ∧ b ≤ l.length then some ((l.drop a).take (b - a)) else none

/-- The tail of `recover_pub_key_compact` after the recovery flag `v0` and the
(possibly masked) `s` bytes have been selected: the malformed-signature length
check, the recovery-id bound check, and the recovery call
(login.rs lines 287-311). -/
def recover_tail (ops : Ops) (r s : List Nat) (v0 : Nat) (message_hash : List Nat)
    (chain_id : Option Nat) : RecoverResult :=
  if 32 < r.length ∨ 32 < s.length then .err
  else
    if 3 < calculate_sig_recovery (adjust_v v0) chain_id then .err
    else
      match ops.ecRecover (r ++ s) message_hash (calculate_sig_recovery (adjust_v v0) chain_id) with
      | none => .err
      | some key => .ok key

/-- Embedding of `recover_pub_key_compact` (login.rs lines 268-311).  The
slices `signature_bytes[1..33]` and `signature_bytes[33..65]` are taken
before the length branch, exactly as in the source; for inputs of at least 65
bytes the recovery flag is byte 0, otherwise it is `signature_bytes[33] >> 7`
(`/ 128`) and `s[0]` is masked with `0x7f` (`% 128`). -/
def recover_pub_key_compact (ops : Ops) (signature_bytes message_hash : List Nat)
    (chain_id : Option Nat) : RecoverResult :=
  match rustSlice signature_bytes 1 33 with
  | none => .panic
  | some r =>
    match rustSlice signature_bytes 33 65 with
    | none => .panic
    | some s0 =>
      if 65 ≤ signature_bytes.length then
        recover_tail ops r s0 (signature_bytes.headD 0) message_hash chain_id
      else
        recover_tail ops r
          (match s0 with
           | [] => []
           | x :: rest => x % 128 :: rest)
          (signature_bytes.getD 33 0 / 128) message_hash chain_id

/-- Embedding of `_verify_message` (login.rs lines 245-266): base64-decode the
signature, hex-decode the declared public key, recover the signing key from
the double-SHA-256 digest, and require the declared key to equal the
recovered key byte-for-byte. -/
def verify_message (ops : Ops) (message : List Nat) (signature public_key : String) :
    RecoverResult :=
  match ops.b64decode signature with
  | none => .err
  | some signature_bytes =>
    match hexDecode public_key with
    | none => .err
    | some public_key_bytes =>
      match recover_pub_key_compact ops signature_bytes (msg_hash ops message) none with
      | .panic => .panic
      | .err => .err
      | .ok recovered =>
        if public_key_bytes = recovered then .ok recovered else .err

/-! ## AddressResolver -/

/-- `bitcoin::PublicKey::from_slice`: 33 bytes tagged 02/03 parse as a
compressed key, 65 bytes tagged 04 as an uncompressed key, anything else is
rejected; the curve check is `ops.validPoint`. -/
def pubkeyFromSlice (ops : Ops) (b : List Nat) : Option BPubKey :=
  if b.length = 33 ∧ (b.headD 0 = 2 ∨ b.headD 0 = 3) ∧ ops.validPoint b = true then
    some ⟨b, true⟩
  else if b.length = 65 ∧ b.headD 0 = 4 ∧ ops.validPoint b = true then
    some ⟨b, false⟩
  else none

/-- The prefix dispatch of `verify_address` (login.rs lines 341-368): an
if/else-if chain on `starts_with`, with P2TR/mainnet as the initial (default)
values. -/
def addrClass (address : String) : AddressType × Network :=
  if strStartsWith address ("bc1q") then (.p2wpkh, .bitcoin)
  else if strStartsWith address ("bc1p") then (.p2tr, .bitcoin)
  else if strStartsWith address ("1") then (.p2pkh, .bitcoin)
  else if strStartsWith address ("3") then (.p2sh, .bitcoin)
  else if strStartsWith address ("tb1q") then (.p2wpkh, .testnet)
  else if strStartsWith address ("m") ∨ strStartsWith address ("n") then (.p2pkh, .testnet)
  else if strStartsWith address ("2") then (.p2sh, .testnet)
  else if strStartsWith address ("tb1p") then (.p2tr, .testnet)
  else (.p2tr, .bitcoin)

/-- Embedding of `verify_address` (login.rs lines 337-399).  Note the source
derives an address string from the key and returns it in `Ok` without ever
comparing it to the `address` argument.  The `compressed` re-parse happens
before the address-type match (its `?` propagates in every branch); the P2PKH
branch passes the original `public_key`, the P2WPKH/P2SH branches pass
`compressed` (the crate errors there if the key is uncompressed), and the
P2TR branch builds the x-only key from `pub_bytes[1..]` of the original
input, with `None` as the script-tree merkle root. -/
def verify_address (ops : Ops) (address : String) (pub_bytes : List Nat) : VAResult :=
  match pubkeyFromSlice ops pub_bytes with
  | none => .err
  | some public_key =>
    match (if public_key.compressed = false
           then pubkeyFromSlice ops (ops.compress pub_bytes)
           else some public_key) with
    | none => .err
    | some compressed =>
      match (addrClass address).1 with
      | .p2pkh => .ok (ops.p2pkh public_key (addrClass address).2)
      | .p2wpkh =>
        if compressed.compressed = true then .ok (ops.p2wpkh compressed (addrClass address).2)
        else .err
      | .p2sh =>
        if compressed.compressed = true then .ok (ops.p2shwpkh compressed (addrClass address).2)
        else .err
      | .p2tr =>
        if (pub_bytes.drop 1).length = 32 ∧ ops.validXOnly (pub_bytes.drop 1) = true then
          .ok (ops.p2tr (pub_bytes.drop 1) none (addrClass address).2)
        else .err

/-! ## ChallengeStore (siwb.rs is outside the given sources) -/

/-- Modelled from the spec: a SIWB message / challenge (siwb.rs `SiwbMessage`)
as used by `login`: its human-readable text (as UTF-8 bytes, the value of
`message.clone().into() : String`) and its issuance timestamp `issued_at`. -/
structure SiwbMessage where
  text : List Nat
  issued_at : Nat
deriving DecidableEq

/-- The challenge store: address script bytes mapped to the pending challenge. -/
abbrev MsgMap := List (List Nat × SiwbMessage)

/-- Modelled from the spec: `SiwbMessageMap::get` (spec section 4.1), a plain
lookup that does not itself check expiry. -/
def msgsGet (k : List Nat) (m : MsgMap) : Option SiwbMessage :=
  (m.find? (fun e => e.1 == k)).map (fun e => e.2)

/-- Modelled from the spec: `SiwbMessageMap::remove` (spec section 4.1),
deleting the entry for the key. -/
def msgsRemove (k : List Nat) (m : MsgMap) : MsgMap :=
  m.filter (fun e => !(e.1 == k))

/-- Modelled from the spec: `SiwbMessageMap::prune_expired` (spec section 4.1),
removing every entry whose `issued_at + ttl < now`. -/
def msgsPruneExpired (now ttl : Nat) (m : MsgMap) : MsgMap :=
  m.filter (fun e => !(decide (e.2.issued_at + ttl < now)))

/-! ## SignatureMap (signature_map.rs is outside the given sources) -/

/-- Modelled from the spec: one certified entry of the signature map
(spec section 4.6): `key = hash(seed)`, `value = delegation hash`, plus the
expiry horizon used by bounded pruning. -/
structure SigEntry where
  key : List Nat
  value : List Nat
  expires_at : Nat
deriving DecidableEq

/-- The signature map. -/
abbrev SigMap := List SigEntry

/-- Lookup of the live entry for a key hash. -/
def sigLookup (k : List Nat) (m : SigMap) : Option (List Nat) :=
  (m.find? (fun e => e.key == k)).map (fun e => e.value)

/-- Modelled from the spec: `SignatureMap::put` (spec section 4.6), inserting
or replacing the certified entry for the key, stamped with the expiry horizon. -/
def sigPut (now ttl : Nat) (k v : List Nat) (m : SigMap) : SigMap :=
  ⟨k, v, now + ttl⟩ :: m.filter (fun e => !(e.key == k))

/-- The entry with the smallest expiry among the expired ones, if any. -/
def minExpired (now : Nat) (m : SigMap) : Option SigEntry :=
  (m.filter (fun e => decide (e.expires_at < now))).foldl
    (fun acc e =>
      match acc with
      | none => some e
      | some a => if e.expires_at < a.expires_at then some e else some a)
    none

/-- Modelled from the spec: `SignatureMap::prune_expired` (spec section 4.6),
removing up to `max` expired entries, oldest expiry first. -/
def sigPruneExpired (now : Nat) : Nat → SigMap → SigMap
  | 0, m => m
  | k + 1, m =>
    match minExpired now m with
    | none => m
    | some e => sigPruneExpired now k (m.filter (fun x => !(x.key == e.key)))

/-! ## LoginOrchestrator -/

/-- The constant `MAX_SIGS_TO_PRUNE` (login.rs line 33). -/
def MAX_SIGS_TO_PRUNE : Nat := 10

/-- Modelled from the spec: the process-wide settings consumed by `login`
(spec section 6): the delegation session TTL and the challenge TTL, both in
nanoseconds. -/
structure Settings where
  session_expires_in : Nat
  sign_in_expires_in : Nat
deriving DecidableEq

/-- u64 `saturating_add`, used for the delegation expiration
(login.rs lines 173-177). -/
def satAdd64 (a b : Nat) : Nat := min (a + b) 18446744073709551615

/-- The mutable state touched by `login`: the challenge store and the
signature map. -/
structure LState where
  msgs : MsgMap
  sigmap : SigMap
deriving DecidableEq

/-- `LoginDetails` (login.rs lines 70-78). -/
structure LoginDetails where
  expiration : Nat
  user_canister_pubkey : List Nat
deriving DecidableEq

/-- `LoginError` (login.rs lines 80-86), restricted to the variants `login`
can produce: the store's not-found error, `AddressMismatch`, a
`DelegationError` from `create_delegation`, and an ASN.1 encoding error from
`create_user_canister_pubkey`. -/
inductive LoginErr where
  | messageNotFound
  | addressMismatch
  | delegationError
  | asn1Err
deriving DecidableEq

/-- Result value of a `login` call. -/
inductive LoginRes where
  | err : LoginErr → LoginRes
  | ok : LoginDetails → LoginRes
deriving DecidableEq

/-- Outcome of a `login` call: a Rust panic, or a return value together with
the state left behind. -/
inductive LoginOutcome where
  | panic : LoginOutcome
  | ret : LState → LoginRes → LoginOutcome
deriving DecidableEq

/-- Embedding of `login` (login.rs lines 138-200), with the current time and
the two stores passed explicitly.  `addressStr` is `address.to_string()` and
`script` is `address.script_pubkey().to_bytes()`.  Step order follows the
source: prune the challenge store, fetch the challenge, verify the message
signature, verify the address, remove the challenge, compute the saturated
expiration from `issued_at`, derive the seed, prune the signature map
(bounded), build the delegation (can fail), hash it, insert it, and finally
derive the user canister public key (can fail). -/
def login (ops : Ops) (settings : Settings) (now : Nat) (st : LState)
    (signature addressStr : String) (script : List Nat)
    (public_key : String) (session_key canister_id : List Nat) : LoginOutcome :=
  match msgsGet script (msgsPruneExpired now settings.sign_in_expires_in st.msgs) with
  | none =>
    .ret ⟨msgsPruneExpired now settings.sign_in_expires_in st.msgs, st.sigmap⟩
      (.err .messageNotFound)
  | some message =>
    match verify_message ops message.text signature public_key with
    | .panic => .panic
    | .err =>
      .ret ⟨msgsPruneExpired now settings.sign_in_expires_in st.msgs, st.sigmap⟩
        (.err .addressMismatch)
    | .ok v =>
      match verify_address ops addressStr v with
      | .err =>
        .ret ⟨msgsPruneExpired now settings.sign_in_expires_in st.msgs, st.sigmap⟩
          (.err .addressMismatch)
      | .ok _ =>
        if ops.sessionKeyValid session_key = false then
          .ret ⟨msgsRemove script (msgsPruneExpired now settings.sign_in_expires_in st.msgs),
                sigPruneExpired now MAX_SIGS_TO_PRUNE st.sigmap⟩
            (.err .delegationError)
        else
          match ops.canisterPubkey canister_id (ops.seed script) with
          | none =>
            .ret ⟨msgsRemove script (msgsPruneExpired now settings.sign_in_expires_in st.msgs),
                  sigPut now ops.sigTtl (ops.hashBytes (ops.seed script))
                    (ops.delegationHash
                      ⟨session_key, satAdd64 message.issued_at settings.session_expires_in⟩)
                    (sigPruneExpired now MAX_SIGS_TO_PRUNE st.sigmap)⟩
              (.err .asn1Err)
          | some ucpk =>
            .ret ⟨msgsRemove script (msgsPruneExpired now settings.sign_in_expires_in st.msgs),
                  sigPut now ops.sigTtl (ops.hashBytes (ops.seed script))
                    (ops.delegationHash
                      ⟨session_key, satAdd64 message.issued_at settings.session_expires_in⟩)
                    (sigPruneExpired now MAX_SIGS_TO_PRUNE st.sigmap)⟩
              (.ok ⟨satAdd64 message.issued_at settings.session_expires_in, ucpk⟩)

/-! ## Concrete instantiations of the external primitives

The abstract primitives in `Ops` are external cryptographic code; closed
theorems and witnesses instantiate them with small concrete oracles.  The
structural facts proved about `login`/`verify_address` hold for every `Ops`;
the oracles only pin down concrete runs. -/

/-- A 33-byte compressed-form public key used as the recovery oracle's output. -/
def tKey : List Nat := 3 :: List.replicate 32 1

/-- The hex spelling of `tKey`, as a caller would pass it to `login`. -/
def tKeyHex : String := "030101010101010101010101010101010101010101010101010101010101010101"

/-- Concrete oracle instantiation of the external primitives: base64 decoding
yields a fixed 65-byte compact signature with recovery flag 27, key recovery
yields `tKey`, and each address constructor yields a fixed string. -/
def tOps : Ops where
  sha256 := fun _ => List.replicate 32 9
  b64decode := fun _ => some (27 :: List.replicate 64 0)
  ecRecover := fun _ _ _ => some tKey
  compress := fun _ => tKey
  validPoint := fun _ => true
  validXOnly := fun _ => true
  p2pkh := fun _ _ => "1derived"
  p2wpkh := fun _ _ => "tb1qderived"
  p2shwpkh := fun _ _ => "3derived"
  p2tr := fun _ _ _ => "bc1pderived"
  seed := fun _ => [1, 2, 3]
  hashBytes := fun l => l
  sessionKeyValid := fun _ => true
  delegationHash := fun d => d.pubkey
  canisterPubkey := fun _ _ => some [42]
  sigTtl := 1000

/-- Concrete settings: session TTL 1000 ns, challenge TTL 500 ns. -/
def tSettings : Settings := ⟨1000, 500⟩

/-- The address script bytes of the concrete challenge. -/
def tScript : List Nat := [0, 20]

/-- A concrete pending challenge issued at time 100. -/
def tMsg : SiwbMessage := ⟨[7], 100⟩

/-- Initial state: one pending challenge, empty signature map. -/
def tState : LState := ⟨[(tScript, tMsg)], []⟩

/-- A concrete session key and canister id. -/
def tSession : List Nat := [6, 6]

/-- A concrete canister id. -/
def tCanister : List Nat := [5]

/-! ## Supporting lemmas -/

theorem leBytes_add (a b n : Nat) :
    leBytes (a + b) n = leBytes a (n % 256 ^ a) ++ leBytes b (n / 256 ^ a) := by
  induction a generalizing n with
  | zero => simp [leBytes]
  | succ a ih =>
    have hs : a + 1 + b = (a + b) + 1 := by omega
    rw [hs]
    show n % 256 :: leBytes (a + b) (n / 256) = _
    rw [ih]
    have h256 : (256 : Nat) ^ (a + 1) = 256 * 256 ^ a := by ring
    have h1 : n % 256 ^ (a + 1) % 256 = n % 256 := by
      rw [h256]
      exact Nat.mod_mod_of_dvd n (Dvd.intro _ rfl)
    have h2 : n % 256 ^ (a + 1) / 256 = n / 256 % 256 ^ a := by
      rw [h256]
      exact Nat.mod_mul_right_div_self n 256 (256 ^ a)
    have h3 : n / 256 ^ (a + 1) = n / 256 / 256 ^ a := by
      rw [h256, Nat.div_div_eq_div_mul]
    show _ = leBytes (a + 1) (n % 256 ^ (a + 1)) ++ leBytes b (n / 256 ^ (a + 1))
    show _ = (n % 256 ^ (a + 1) % 256 :: leBytes a (n % 256 ^ (a + 1) / 256))
        ++ leBytes b (n / 256 ^ (a + 1))
    rw [h1, h2, h3]
    rfl
theorem varint_eq_compactSize (n : Int) (h0 : 0 ≤ n) (h1 : n < 9223372036854775808) :
    varint_buf_num n = compactSize n.toNat := by
  obtain ⟨m, rfl⟩ : ∃ m : Nat, n = (m : Int) :=
    ⟨n.toNat, (Int.toNat_of_nonneg h0).symm⟩
  have hm : m < 9223372036854775808 := by exact_mod_cast h1
  unfold varint_buf_num compactSize
  rw [Int.toNat_natCast]
  by_cases hA : m < 253
  · rw [if_pos (by exact_mod_cast hA : ((m : Int) < 253)), if_pos hA]
    have h : ((m : Int) % 256).toNat = m := by omega
    rw [h]
  · rw [if_neg (by exact_mod_cast hA : ¬ ((m : Int) < 253)), if_neg hA]
    by_cases hB : m < 65536
    · rw [if_pos (by exact_mod_cast hB : ((m : Int) < 65536)), if_pos hB]
      have h : ((m : Int) % 65536).toNat = m := by omega
      rw [h]
    · rw [if_neg (by exact_mod_cast hB : ¬ ((m : Int) < 65536)), if_neg hB]
      by_cases hC : m < 4294967296
      · rw [if_pos (by exact_mod_cast hC : ((m : Int) < 4294967296)), if_pos hC]
        have h : ((m : Int) % 4294967296).toNat = m := by omega
        rw [h]
      · rw [if_neg (by exact_mod_cast hC : ¬ ((m : Int) < 4294967296)), if_neg hC]
        have hlow : ((as_i32 (m : Int)) % 4294967296).toNat = m % 4294967296 := by
          unfold as_i32
          split <;> omega
        have hdiv : Int.tdiv (m : Int) 4294967296 = ((m / 4294967296 : Nat) : Int) := by
          rw [show ((4294967296 : Int)) = ((4294967296 : Nat) : Int) from rfl]
          rw [← Int.ofNat_tdiv]
        have hhigh : ((Int.tdiv (m : Int) 4294967296) % 4294967296).toNat
            = m / 4294967296 := by
          rw [hdiv]; omega
        rw [hlow, hhigh]
        have h8 : leBytes 8 m = leBytes 4 (m % 256 ^ 4) ++ leBytes 4 (m / 256 ^ 4) :=
          leBytes_add 4 4 m
        rw [show ((256 : Nat) ^ 4) = 4294967296 from by norm_num] at h8
        rw [h8]

theorem reduce4Fuel_mod (fuel : Nat) : ∀ v : Nat, v ≤ 4 * fuel + 3 → reduce4Fuel fuel v = v % 4 := by
  induction fuel with
  | zero => intro v h; simp only [reduce4Fuel]; omega
  | succ f ih =>
    intro v h
    simp only [reduce4Fuel]
    split
    · rw [ih (v - 4) (by omega)]; omega
    · omega

theorem reduce4_eq_mod (v : Nat) : reduce4 v = v % 4 :=
  reduce4Fuel_mod v v (by omega)

theorem msgsGet_remove (k : List Nat) (m : MsgMap) : msgsGet k (msgsRemove k m) = none := by
  unfold msgsGet msgsRemove
  rw [Option.map_eq_none', List.find?_eq_none]
  intro e he
  have h2 := (List.mem_filter.mp he).2
  simp only [Bool.not_eq_true', beq_eq_false_iff_ne] at h2
  simp [h2]

theorem sigLookup_put (now ttl : Nat) (k v : List Nat) (m : SigMap) :
    sigLookup k (sigPut now ttl k v m) = some v := by
  unfold sigLookup sigPut
  simp [List.find?]

theorem pubkeyFromSlice_shape (ops : Ops) (b : List Nat) (key : BPubKey)
    (h : pubkeyFromSlice ops b = some key) :
    key.bytes = b ∧
      ((key.compressed = true ∧ b.length = 33) ∨ (key.compressed = false ∧ b.length = 65)) := by
  unfold pubkeyFromSlice at h
  split_ifs at h with h1 h2
  · cases h; exact ⟨rfl, Or.inl ⟨rfl, h1.1⟩⟩
  · cases h; exact ⟨rfl, Or.inr ⟨rfl, h2.1⟩⟩

theorem recover_ok_shape (ops : Ops) (sig dg : List Nat) (cid : Option Nat) (k : List Nat)
    (h : recover_pub_key_compact ops sig dg cid = .ok k) :
    ∃ rs rid, ops.ecRecover rs dg rid = some k := by
  have tail : ∀ r s v0 : _, ∀ cid2 : Option Nat,
      recover_tail ops r s v0 dg cid2 = .ok k → ∃ rs rid, ops.ecRecover rs dg rid = some k := by
    intro r s v0 cid2 ht
    unfold recover_tail at ht
    split at ht
    · exact RecoverResult.noConfusion ht
    · split at ht
      · exact RecoverResult.noConfusion ht
      · split at ht
        · exact RecoverResult.noConfusion ht
        · next hrec => exact ⟨_, _, by rw [hrec]; cases ht; rfl⟩
  unfold recover_pub_key_compact at h
  split at h
  · exact RecoverResult.noConfusion h
  · split at h
    · exact RecoverResult.noConfusion h
    · split at h
      · exact tail _ _ _ _ h
      · exact tail _ _ _ _ h

theorem verify_message_ok_shape (ops : Ops) (msg : List Nat) (sig pk : String) (v : List Nat)
    (h : verify_message ops msg sig pk = .ok v) :
    ∃ sb, ops.b64decode sig = some sb ∧ hexDecode pk = some v ∧
      recover_pub_key_compact ops sb (msg_hash ops msg) none = .ok v := by
  unfold verify_message at h
  split at h
  · exact RecoverResult.noConfusion h
  · next sb hsb =>
    split at h
    · exact RecoverResult.noConfusion h
    · next b hb =>
      split at h
      · exact RecoverResult.noConfusion h
      · exact RecoverResult.noConfusion h
      · next k hk =>
        by_cases he : b = k
        · rw [if_pos he] at h
          cases h
          exact ⟨sb, hsb, he ▸ hb, hk⟩
        · rw [if_neg he] at h
          exact RecoverResult.noConfusion h

theorem verify_message_hex_none (ops : Ops) (msg : List Nat) (sig pk : String)
    (h : hexDecode pk = none) : verify_message ops msg sig pk = .err := by
  unfold verify_message
  split
  · rfl
  · rw [h]

theorem verify_message_mismatch (ops : Ops) (msg : List Nat) (sig pk : String)
    (sb b k : List Nat) (hb : ops.b64decode sig = some sb) (hx : hexDecode pk = some b)
    (hr : recover_pub_key_compact ops sb (msg_hash ops msg) none = .ok k) (hne : b ≠ k) :
    verify_message ops msg sig pk = .err := by
  unfold verify_message
  rw [hb, hx]
  show (match recover_pub_key_compact ops sb (msg_hash ops msg) none with
    | RecoverResult.panic => RecoverResult.panic
    | RecoverResult.err => RecoverResult.err
    | RecoverResult.ok recovered =>
      if b = recovered then RecoverResult.ok recovered else RecoverResult.err) = RecoverResult.err
  rw [hr]
  exact if_neg hne

/-! ## Claim theorems -/

/-- C6: for every non-negative length `n` (in the i64 input domain of the
source function), `varint_buf_num n` is exactly Bitcoin's CompactSize
encoding of `n`: below 253 the single byte `n`; below 2^16 marker 253 plus
little-endian u16; below 2^32 marker 254 plus little-endian u32; otherwise
marker 255 plus the little-endian u64 (low 32 bits then high 32 bits). -/
theorem C6_varint_is_compactsize (n : Int) (h0 : 0 ≤ n)
    (h1 : n < 9223372036854775808) :
    varint_buf_num n = compactSize n.toNat :=
  varint_eq_compactSize n h0 h1

theorem C6_varint_is_compactsize_witness :
    (0 ≤ (5000000000 : Int)) ∧ ((5000000000 : Int) < 9223372036854775808) ∧
      varint_buf_num 5000000000 = compactSize (Int.toNat 5000000000) :=
  ⟨by decide, by decide, C6_varint_is_compactsize 5000000000 (by decide) (by decide)⟩

/-- C7: recovery-id normalization.  The recoverer adds 27 to any flag below
27; `calculate_sig_recovery` returns 0 and 1 unchanged; for a flag at least
27 with no chain id it reduces `v - 27` by repeated subtraction of 4 into
[0,3], and with a chain id it performs the same reduction starting from
`v - (chain_id*2 + 35)`; the reduction loop itself always lands in [0,3],
leaves values at most 3 unchanged, and subtracts 4 from larger values. -/
theorem C7_recovery_id_normalization :
    (∀ v : Nat, v < 27 → adjust_v v = v + 27) ∧
    (∀ cid : Option Nat, calculate_sig_recovery 0 cid = 0 ∧ calculate_sig_recovery 1 cid = 1) ∧
    (∀ v : Nat, 27 ≤ v → v < 256 → calculate_sig_recovery v none = reduce4 (v - 27)) ∧
    (∀ v c : Nat, 2 ≤ v → v < 256 → c * 2 + 35 ≤ v →
      calculate_sig_recovery v (some c) = reduce4 (v - (c * 2 + 35))) ∧
    (∀ v : Nat, reduce4 v ≤ 3 ∧ (v ≤ 3 → reduce4 v = v) ∧ (3 < v → reduce4 v = reduce4 (v - 4))) := by
  refine ⟨?_, ?_, ?_, ?_, ?_⟩
  · intro v h
    unfold adjust_v
    rw [if_pos h]
  · intro cid
    constructor <;> (unfold calculate_sig_recovery; simp)
  · intro v h1 h2
    unfold calculate_sig_recovery
    rw [if_neg (by omega)]
    show reduce4 ((v + 256 - 27) % 256) = reduce4 (v - 27)
    congr 1
    omega
  · intro v c h1 h2 h3
    unfold calculate_sig_recovery
    rw [if_neg (by omega)]
    show reduce4 ((v + 256 - (c * 2 + 35) % 256) % 256) = reduce4 (v - (c * 2 + 35))
    congr 1
    have hc : (c * 2 + 35) % 256 = c * 2 + 35 := Nat.mod_eq_of_lt (by omega)
    rw [hc]
    omega
  · intro v
    refine ⟨?_, ?_, ?_⟩
    · rw [reduce4_eq_mod]; omega
    · intro h; rw [reduce4_eq_mod]; omega
    · intro h; rw [reduce4_eq_mod, reduce4_eq_mod]; omega

theorem C7_recovery_id_normalization_witness :
    (0 : Nat) < 27 ∧ adjust_v 0 = 0 + 27 ∧
      (27 : Nat) ≤ 31 ∧ (31 : Nat) < 256 ∧
      calculate_sig_recovery 31 none = reduce4 (31 - 27) :=
  ⟨by decide, C7_recovery_id_normalization.1 0 (by decide), by decide, by decide,
    C7_recovery_id_normalization.2.2.1 31 (by decide) (by decide)⟩

/-- C5: for every message byte list `m` (of any realistic length), the digest
computed by `_msg_hash` equals SHA-256 applied twice to the buffer
`varint(len(magic)) ‖ magic ‖ varint(len(m)) ‖ m`, with the varints in
CompactSize form and `magic` the Bitcoin signed-message magic string; the
digest is a pure function of `m`, hence deterministic. -/
theorem C5_msg_hash_framing (ops : Ops) (m : List Nat)
    (h : m.length < 9223372036854775808) :
    msg_hash ops m
      = ops.sha256 (ops.sha256
          (compactSize MAGIC_LIST.length ++ MAGIC_LIST ++ compactSize m.length ++ m)) := by
  unfold msg_hash
  have h1 : varint_buf_num (usize_as_i64 MAGIC_LIST.length) = compactSize MAGIC_LIST.length := by
    decide
  have h2 : usize_as_i64 m.length = (m.length : Int) := by
    unfold usize_as_i64
    rw [Nat.mod_eq_of_lt (by omega)]
    rw [if_pos (by exact_mod_cast h)]
  have h3 : varint_buf_num (usize_as_i64 m.length) = compactSize m.length := by
    rw [h2, varint_eq_compactSize _ (Int.natCast_nonneg _) (by exact_mod_cast h),
      Int.toNat_natCast]
  rw [h1, h3]

theorem C5_msg_hash_framing_witness :
    ([7] : List Nat).length < 9223372036854775808 ∧
      msg_hash tOps [7]
        = tOps.sha256 (tOps.sha256
            (compactSize MAGIC_LIST.length ++ MAGIC_LIST
              ++ compactSize ([7] : List Nat).length ++ [7])) :=
  ⟨by decide, C5_msg_hash_framing tOps [7] (by decide)⟩

/-- Oracle for C2 whose recovery primitive records the recovery id it was
given, making the flow of the recovery flag observable. -/
def c2Ops : Ops := { tOps with ecRecover := fun _ _ rid => some [rid] }

/-- C2: the 65-byte format is handled as claimed (byte 0 is the recovery
flag, as the two distinct flag bytes 31 and 32 steering the recovery id to 0
and 1 show), but every 64-byte signature hits the out-of-bounds slice
`signature_bytes[33..65]`, which is taken before the length branch: the code
panics instead of reading the recovery bit from the high bit of `s[0]`. -/
theorem C2_recover_formats :
    recover_pub_key_compact c2Ops (List.replicate 64 0) (List.replicate 32 7) none
        = .panic ∧
    recover_pub_key_compact c2Ops (31 :: List.replicate 64 0) (List.replicate 32 7) none
        = .ok [0] ∧
    recover_pub_key_compact c2Ops (32 :: List.replicate 64 0) (List.replicate 32 7) none
        = .ok [1] := by decide

/-- Success of `verify_address` can depend on the address string only through
its prefix class: two addresses that classify to the same type/network give
identical results for every key and every instantiation of the external
primitives, so the function cannot be checking the derived string against the
input address. -/
theorem verify_address_only_sees_prefix (ops : Ops) (a1 a2 : String) (pk : List Nat)
    (h : addrClass a1 = addrClass a2) :
    verify_address ops a1 pk = verify_address ops a2 pk := by
  unfold verify_address
  rw [h]

/-- C9 (amended): key preparation per address type in `verify_address`.  For
P2WPKH and P2SH-wrapped-segwit the key is compressed first if it was supplied
uncompressed and the compressed key is used; for P2PKH the key is used exactly
as supplied, without compression; for P2TR the bytes after the first byte of
the supplied key are used as the x-only internal key with no script-path
tweak (so for a compressed key its x-coordinate, bytes 1..33), while an
uncompressed 65-byte key makes the P2TR branch fail instead of using the
x-coordinate of its compressed form. -/
theorem C9_key_preparation (ops : Ops) (address : String) (pub_bytes : List Nat)
    (key : BPubKey) (hk : pubkeyFromSlice ops pub_bytes = some key) :
    ((addrClass address).1 = AddressType.p2pkh → key.compressed = true →
      verify_address ops address pub_bytes = .ok (ops.p2pkh key (addrClass address).2)) ∧
    (∀ ck : BPubKey, (addrClass address).1 = AddressType.p2pkh → key.compressed = false →
      pubkeyFromSlice ops (ops.compress pub_bytes) = some ck →
      verify_address ops address pub_bytes = .ok (ops.p2pkh key (addrClass address).2)) ∧
    ((addrClass address).1 = AddressType.p2wpkh → key.compressed = true →
      verify_address ops address pub_bytes = .ok (ops.p2wpkh key (addrClass address).2)) ∧
    (∀ ck : BPubKey, (addrClass address).1 = AddressType.p2wpkh → key.compressed = false →
      pubkeyFromSlice ops (ops.compress pub_bytes) = some ck → ck.compressed = true →
      verify_address ops address pub_bytes = .ok (ops.p2wpkh ck (addrClass address).2)) ∧
    ((addrClass address).1 = AddressType.p2sh → key.compressed = true →
      verify_address ops address pub_bytes = .ok (ops.p2shwpkh key (addrClass address).2)) ∧
    (∀ ck : BPubKey, (addrClass address).1 = AddressType.p2sh → key.compressed = false →
      pubkeyFromSlice ops (ops.compress pub_bytes) = some ck → ck.compressed = true →
      verify_address ops address pub_bytes = .ok (ops.p2shwpkh ck (addrClass address).2)) ∧
    ((addrClass address).1 = AddressType.p2tr → key.compressed = true →
      ops.validXOnly (pub_bytes.drop 1) = true →
      verify_address ops address pub_bytes
        = .ok (ops.p2tr (pub_bytes.drop 1) none (addrClass address).2)) ∧
    ((addrClass address).1 = AddressType.p2tr → key.compressed = false →
      ∀ s : String, verify_address ops address pub_bytes ≠ .ok s) := by
  obtain ⟨hbytes, hshape⟩ := pubkeyFromSlice_shape ops pub_bytes key hk
  refine ⟨?_, ?_, ?_, ?_, ?_, ?_, ?_, ?_⟩
  · intro h1 h2
    simp [verify_address, hk, h1, h2]
  · intro ck h1 h2 hck
    simp [verify_address, hk, h1, h2, hck]
  · intro h1 h2
    simp [verify_address, hk, h1, h2]
  · intro ck h1 h2 hck hc2
    simp [verify_address, hk, h1, h2, hck, hc2]
  · intro h1 h2
    simp [verify_address, hk, h1, h2]
  · intro ck h1 h2 hck hc2
    simp [verify_address, hk, h1, h2, hck, hc2]
  · intro h1 h2 hx
    have hlen : pub_bytes.length = 33 := by
      rcases hshape with ⟨_, hl⟩ | ⟨hc, _⟩
      · exact hl
      · rw [h2] at hc; exact absurd hc (by simp)
    have hd : (pub_bytes.drop 1).length = 32 := by
      rw [List.length_drop, hlen]
    simp [verify_address, hk, h1, h2]
    refine ⟨hlen, ?_⟩
    rw [← List.drop_one]
    exact hx
  · intro h1 h2 s habs
    have hlen : pub_bytes.length = 65 := by
      rcases hshape with ⟨hc, _⟩ | ⟨_, hl⟩
      · rw [h2] at hc; exact absurd hc (by simp)
      · exact hl
    have hd : (pub_bytes.drop 1).length = 64 := by
      rw [List.length_drop, hlen]
    unfold verify_address at habs
    rw [hk] at habs
    have hred :
        (match (if key.compressed = false
                then pubkeyFromSlice ops (ops.compress pub_bytes)
                else some key) with
          | none => VAResult.err
          | some compressed =>
            match (addrClass address).1 with
            | AddressType.p2pkh => VAResult.ok (ops.p2pkh key (addrClass address).2)
            | AddressType.p2wpkh =>
              if compressed.compressed = true then
                VAResult.ok (ops.p2wpkh compressed (addrClass address).2)
              else VAResult.err
            | AddressType.p2sh =>
              if compressed.compressed = true then
                VAResult.ok (ops.p2shwpkh compressed (addrClass address).2)
              else VAResult.err
            | AddressType.p2tr =>
              if (pub_bytes.drop 1).length = 32 ∧ ops.validXOnly (pub_bytes.drop 1) = true then
                VAResult.ok (ops.p2tr (pub_bytes.drop 1) none (addrClass address).2)
              else VAResult.err)
          = VAResult.ok s := habs
    revert hred
    split
    · exact fun hred => VAResult.noConfusion hred
    · intro hred
      rw [h1] at hred
      dsimp only at hred
      rw [if_neg (by rw [hd]; intro hcc; exact absurd hcc.1 (by decide))] at hred
      exact VAResult.noConfusion hred

theorem C9_key_preparation_witness :
    pubkeyFromSlice tOps tKey = some ⟨tKey, true⟩ ∧
      (addrClass ("bc1qabc")).1 = AddressType.p2wpkh ∧
      verify_address tOps ("bc1qabc") tKey
        = .ok (tOps.p2wpkh ⟨tKey, true⟩ (addrClass ("bc1qabc")).2) :=
  ⟨by decide, by decide,
    (C9_key_preparation tOps ("bc1qabc") tKey ⟨tKey, true⟩ (by decide)).2.2.1
      (by decide) (by decide)⟩

/-- A 65-byte uncompressed-form key for the C9 counterexample. -/
def c9upk : List Nat := 4 :: List.replicate 64 5

/-- The compressed serialization the C9 oracle assigns to `c9upk`. -/
def c9ck : List Nat := 2 :: List.replicate 32 5

/-- Oracle for C9 whose P2PKH constructor reveals whether it was given the
compressed or the uncompressed form of the key. -/
def c9Ops : Ops :=
  { tOps with
    p2pkh := fun k _ => if k.compressed then "1c" else "1u"
    compress := fun _ => c9ck }

/-- C9 counterexample: for a P2PKH address and an uncompressed key the source
passes the original `public_key` to `Address::p2pkh`, not the compressed
re-parse, so the derived address is the uncompressed-key one — the claim that
the key is used "after being compressed if it was supplied uncompressed" fails. -/
theorem C9_counterexample :
    verify_address c9Ops ("1abc") c9upk = .ok ("1u") ∧
    c9Ops.p2pkh ⟨c9Ops.compress c9upk, true⟩ (addrClass ("1abc")).2 = "1c" ∧
    verify_address c9Ops ("1abc") c9upk
      ≠ .ok (c9Ops.p2pkh ⟨c9Ops.compress c9upk, true⟩ (addrClass ("1abc")).2) := by decide

/-- C1: address verification never compares the derived address string to the
input address string.  `verify_address` returns `Ok(derived)` for a key from
which the input address was not derived (the derived string differs from the
input), and `login` — which only tests `is_err()` — completes successfully
for that same mismatched address/key pair instead of failing with
`AddressMismatch`. -/
theorem C1_no_address_equality_check :
    verify_address tOps ("tb1qwrongaddress") tKey = .ok ("tb1qderived") ∧
    ("tb1qderived" : String) ≠ ("tb1qwrongaddress" : String) ∧
    login tOps tSettings 150 tState ("sig") ("tb1qwrongaddress") tScript tKeyHex tSession
        tCanister
      = .ret ⟨[], [⟨[1, 2, 3], tSession, 1150⟩]⟩ (.ok ⟨1100, [42]⟩) := by decide

/-- C3 (amended): on every successful `login` the challenge is removed and
the delegation hash is inserted under `hash(seed)` — but this pairing is not
atomic against error returns: a `create_delegation` failure happens after the
challenge removal and before the insertion.  This theorem proves the success
direction. -/
theorem C3_success_removes_and_inserts (ops : Ops) (settings : Settings) (now : Nat)
    (st : LState) (signature addressStr : String) (script : List Nat) (public_key : String)
    (session_key canister_id : List Nat) (st' : LState) (d : LoginDetails)
    (h : login ops settings now st signature addressStr script public_key session_key
          canister_id = .ret st' (.ok d)) :
    msgsGet script st'.msgs = none ∧
    ∃ m : SiwbMessage,
      msgsGet script (msgsPruneExpired now settings.sign_in_expires_in st.msgs) = some m ∧
      sigLookup (ops.hashBytes (ops.seed script)) st'.sigmap
        = some (ops.delegationHash
            ⟨session_key, satAdd64 m.issued_at settings.session_expires_in⟩) := by
  unfold login at h
  split at h
  · simp at h
  · next message hm =>
    split at h
    · simp at h
    · simp at h
    · next v hv =>
      split at h
      · simp at h
      · split at h
        · simp at h
        · split at h
          · simp at h
          · next ucpk hu =>
            rw [LoginOutcome.ret.injEq] at h
            obtain ⟨h1, h2⟩ := h
            subst h1
            exact ⟨msgsGet_remove _ _, message, hm, sigLookup_put _ _ _ _ _⟩

theorem C3_success_removes_and_inserts_witness :
    msgsGet tScript (LState.mk [] [⟨[1, 2, 3], tSession, 1150⟩]).msgs = none ∧
    ∃ m : SiwbMessage,
      msgsGet tScript (msgsPruneExpired 150 tSettings.sign_in_expires_in tState.msgs) = some m ∧
      sigLookup (tOps.hashBytes (tOps.seed tScript))
          (LState.mk [] [⟨[1, 2, 3], tSession, 1150⟩]).sigmap
        = some (tOps.delegationHash
            ⟨tSession, satAdd64 m.issued_at tSettings.session_expires_in⟩) :=
  C3_success_removes_and_inserts tOps tSettings 150 tState ("sig") ("tb1qwrongaddress")
    tScript tKeyHex tSession tCanister ⟨[], [⟨[1, 2, 3], tSession, 1150⟩]⟩ ⟨1100, [42]⟩
    (by decide)

/-- Oracle for the C3 counterexample: identical to `tOps` except that the
session key is structurally invalid, making `create_delegation` fail. -/
def c3Ops : Ops := { tOps with sessionKeyValid := fun _ => false }

/-- C3 counterexample: with a challenge live after pruning, a login whose
`create_delegation` step fails returns an error having already removed the
challenge from the store, with nothing inserted into the signature map — an
observable partial state, contradicting the claimed atomicity. -/
theorem C3_counterexample :
    login c3Ops tSettings 150 tState ("sig") ("tb1qwrongaddress") tScript tKeyHex tSession
        tCanister
      = .ret ⟨[], []⟩ (.err .delegationError) ∧
    msgsGet tScript (msgsPruneExpired 150 tSettings.sign_in_expires_in tState.msgs)
      = some tMsg ∧
    msgsGet tScript ([] : MsgMap) = none ∧
    sigLookup (c3Ops.hashBytes (c3Ops.seed tScript)) ([] : SigMap) = none := by decide

/-- C4: `login` succeeds only if the supplied public-key string hex-decodes to
exactly the 33-byte compressed key recovered from the signature over the
message digest; with a live challenge, a hex-decoding failure or a decoded
key differing from the recovered key makes `login` return `AddressMismatch`
leaving the stores unchanged beyond pruning. -/
theorem C4_public_key_must_match_recovered (ops : Ops) (settings : Settings) (now : Nat)
    (st : LState) (signature addressStr : String) (script : List Nat) (public_key : String)
    (session_key canister_id : List Nat)
    (hrec : ∀ rs dg rid k, ops.ecRecover rs dg rid = some k → k.length = 33) :
    (∀ st' d, login ops settings now st signature addressStr script public_key session_key
          canister_id = .ret st' (.ok d) →
      ∃ m b, msgsGet script (msgsPruneExpired now settings.sign_in_expires_in st.msgs)
          = some m ∧
        hexDecode public_key = some b ∧ b.length = 33 ∧
        ∃ sb, ops.b64decode signature = some sb ∧
          recover_pub_key_compact ops sb (msg_hash ops m.text) none = .ok b) ∧
    (∀ m, msgsGet script (msgsPruneExpired now settings.sign_in_expires_in st.msgs) = some m →
      hexDecode public_key = none →
      login ops settings now st signature addressStr script public_key session_key canister_id
        = .ret ⟨msgsPruneExpired now settings.sign_in_expires_in st.msgs, st.sigmap⟩
            (.err .addressMismatch)) ∧
    (∀ m sb b k,
      msgsGet script (msgsPruneExpired now settings.sign_in_expires_in st.msgs) = some m →
      ops.b64decode signature = some sb → hexDecode public_key = some b →
      recover_pub_key_compact ops sb (msg_hash ops m.text) none = .ok k → b ≠ k →
      login ops settings now st signature addressStr script public_key session_key canister_id
        = .ret ⟨msgsPruneExpired now settings.sign_in_expires_in st.msgs, st.sigmap⟩
            (.err .addressMismatch)) := by
  refine ⟨?_, ?_, ?_⟩
  · intro st' d h
    unfold login at h
    split at h
    · simp at h
    · next message hm =>
      split at h
      · simp at h
      · simp at h
      · next v hv =>
        obtain ⟨sb, hsb, hx, hr⟩ := verify_message_ok_shape ops message.text signature
          public_key v hv
        obtain ⟨rs, rid, hre⟩ := recover_ok_shape ops sb (msg_hash ops message.text) none v hr
        exact ⟨message, v, hm, hx, hrec _ _ _ _ hre, sb, hsb, hr⟩
  · intro m hm hx
    unfold login
    simp only [hm]
    simp only [verify_message_hex_none ops m.text signature public_key hx]
  · intro m sb b k hm hsb hx hr hne
    unfold login
    simp only [hm]
    simp only [verify_message_mismatch ops m.text signature public_key sb b k hsb hx hr hne]

theorem C4_public_key_must_match_recovered_witness :
    ∃ m b, msgsGet tScript (msgsPruneExpired 150 tSettings.sign_in_expires_in tState.msgs)
        = some m ∧
      hexDecode tKeyHex = some b ∧ b.length = 33 ∧
      ∃ sb, tOps.b64decode ("sig") = some sb ∧
        recover_pub_key_compact tOps sb (msg_hash tOps m.text) none = .ok b :=
  (C4_public_key_must_match_recovered tOps tSettings 150 tState ("sig") ("tb1qwrongaddress")
      tScript tKeyHex tSession tCanister
      (fun rs dg rid k h => by cases h; decide)).1
    ⟨[], [⟨[1, 2, 3], tSession, 1150⟩]⟩ ⟨1100, [42]⟩ (by decide)

/-- C8 (amended): on every successful `login` the returned expiration equals
`issued_at + session_expires_in` computed with u64 `saturating_add` — that
is, `min (issued_at + session_expires_in) (2^64 - 1)` — anchored to the
challenge's issuance time; it does not depend on the current time. -/
theorem C8_expiration_anchored_saturating (ops : Ops) (settings : Settings) (now : Nat)
    (st : LState) (signature addressStr : String) (script : List Nat) (public_key : String)
    (session_key canister_id : List Nat) (st' : LState) (d : LoginDetails)
    (h : login ops settings now st signature addressStr script public_key session_key
          canister_id = .ret st' (.ok d)) :
    ∃ m : SiwbMessage,
      msgsGet script (msgsPruneExpired now settings.sign_in_expires_in st.msgs) = some m ∧
      d.expiration = min (m.issued_at + settings.session_expires_in) 18446744073709551615 := by
  unfold login at h
  split at h
  · simp at h
  · next message hm =>
    split at h
    · simp at h
    · simp at h
    · next v hv =>
      split at h
      · simp at h
      · split at h
        · simp at h
        · split at h
          · simp at h
          · next ucpk hu =>
            rw [LoginOutcome.ret.injEq] at h
            obtain ⟨h1, h2⟩ := h
            rw [LoginRes.ok.injEq] at h2
            subst h2
            exact ⟨message, hm, rfl⟩

theorem C8_expiration_anchored_saturating_witness :
    ∃ m : SiwbMessage,
      msgsGet tScript (msgsPruneExpired 150 tSettings.sign_in_expires_in tState.msgs) = some m ∧
      (LoginDetails.mk 1100 [42]).expiration
        = min (m.issued_at + tSettings.session_expires_in) 18446744073709551615 :=
  C8_expiration_anchored_saturating tOps tSettings 150 tState ("sig") ("tb1qwrongaddress")
    tScript tKeyHex tSession tCanister ⟨[], [⟨[1, 2, 3], tSession, 1150⟩]⟩ ⟨1100, [42]⟩
    (by decide)

/-- Settings for the C8 counterexample: the session TTL is u64::MAX, so the
saturating addition differs from the mathematical sum. -/
def c8Settings : Settings := ⟨18446744073709551615, 500⟩

/-- C8 counterexample: a successful login whose challenge was issued at time
100 under a session TTL of u64::MAX returns expiration 2^64 - 1, which is not
`issued_at + session_expires_in`: the source uses `saturating_add`, not plain
addition. -/
theorem C8_counterexample :
    login tOps c8Settings 150 tState ("sig") ("tb1qwrongaddress") tScript tKeyHex tSession
        tCanister
      = .ret ⟨[], [⟨[1, 2, 3], tSession, 1150⟩]⟩ (.ok ⟨18446744073709551615, [42]⟩) ∧
    msgsGet tScript (msgsPruneExpired 150 c8Settings.sign_in_expires_in tState.msgs)
      = some tMsg ∧
    (18446744073709551615 : Nat) ≠ tMsg.issued_at + c8Settings.session_expires_in := by decide

/-- C10: a login that fails verification with `AddressMismatch` does not
consume the challenge: the store after the call is exactly the pruned store
(and the signature map is untouched), so any challenge that survived expiry
pruning — in particular this address's — is still present. -/
theorem C10_mismatch_preserves_challenge (ops : Ops) (settings : Settings) (now : Nat)
    (st : LState) (signature addressStr : String) (script : List Nat) (public_key : String)
    (session_key canister_id : List Nat) (st' : LState)
    (h : login ops settings now st signature addressStr script public_key session_key
          canister_id = .ret st' (.err .addressMismatch)) :
    st'.msgs = msgsPruneExpired now settings.sign_in_expires_in st.msgs ∧
    st'.sigmap = st.sigmap ∧
    ∀ m, msgsGet script (msgsPruneExpired now settings.sign_in_expires_in st.msgs) = some m →
      msgsGet script st'.msgs = some m := by
  unfold login at h
  split at h
  · simp at h
  · next message hm =>
    split at h
    · simp at h
    · rw [LoginOutcome.ret.injEq] at h
      obtain ⟨h1, _⟩ := h
      subst h1
      exact ⟨rfl, rfl, fun m hm2 => hm2⟩
    · next v hv =>
      split at h
      · rw [LoginOutcome.ret.injEq] at h
        obtain ⟨h1, _⟩ := h
        subst h1
        exact ⟨rfl, rfl, fun m hm2 => hm2⟩
      · split at h
        · simp at h
        · split at h
          · simp at h
          · simp at h

theorem C10_mismatch_preserves_challenge_witness :
    (LState.mk tState.msgs []).msgs
        = msgsPruneExpired 150 tSettings.sign_in_expires_in tState.msgs ∧
    (LState.mk tState.msgs []).sigmap = tState.sigmap ∧
    ∀ m, msgsGet tScript (msgsPruneExpired 150 tSettings.sign_in_expires_in tState.msgs)
        = some m →
      msgsGet tScript (LState.mk tState.msgs []).msgs = some m :=
  C10_mismatch_preserves_challenge tOps tSettings 150 tState ("sig") ("tb1qwrongaddress")
    tScript ("04") tSession tCanister ⟨tState.msgs, []⟩ (by decide)

end ICSiwb
